import Mathlib

/-!
# Verification of the terraform-provider-aws excerpt

Shallow embedding of two independent pieces of the repository:

1. the `aws_lb_listener` resource adapter (`resourceAwsLbListener*` in
   `src/unnamed/part_001`): Create / Read / Update / Delete lifecycle
   handlers around the ELBv2 API, with a bounded retry wrapper and a
   poll-until-visible wait after creation;

2. the tag-helper generator
   (`src/aws/internal/keyvaluetags/generators/servicetags/main.go`):
   a build-time script emitting per-service tag conversion functions
   from two static service-name lists via template expansion.

Remote API calls are modelled as environments mapping an attempt index to
the call outcome; machine state (`*schema.ResourceData`) is passed
explicitly.
-/

namespace LbListener

/-- An AWS SDK error (`awserr.Error`): an error code and a message. -/
structure AwsError where
  code : String
  message : String
deriving DecidableEq, Repr

/-- A Go `error` value as seen by callers of the resource helpers: either an
AWS SDK error, or a plain error built by `fmt.Errorf` / `errors.New`
(which does not implement `awserr.Error`). -/
inductive GoError where
  | aws (e : AwsError)
  | plain (msg : String)
deriving DecidableEq, Repr

/-- Go `strings.Contains s sub` (the empty substring is contained in every
string; otherwise `splitOn` yields at least two pieces exactly when the
substring occurs). -/
def strContains (s sub : String) : Bool :=
  sub.isEmpty || (s.splitOn sub).length ≥ 2

/-- Helper `isAWSErr(err, code, message)` for an AWS SDK error: the code matches
exactly and the message contains the given fragment. -/
def isAWSErr (err : AwsError) (code message : String) : Bool :=
  err.code == code && strContains err.message message

/-- Check `isAWSErr` applied to a general Go error: a plain (`fmt.Errorf`) error
never satisfies the `awserr.Error` type assertion. -/
def isAWSErrGo (err : GoError) (code message : String) : Bool :=
  match err with
  | .aws e => isAWSErr e code message
  | .plain _ => false

/-- Constant `elbv2.ErrCodeCertificateNotFoundException`. -/
def errCodeCertificateNotFoundException : String := "CertificateNotFound"

/-- Constant `elbv2.ErrCodeListenerNotFoundException`. -/
def errCodeListenerNotFoundException : String := "ListenerNotFound"

/-- What the body passed to `resource.Retry` decides about one attempt:
success with a result, `resource.RetryableError`, or
`resource.NonRetryableError`. -/
inductive RetryDecision (α : Type) where
  | done (a : α)
  | retry (e : AwsError)
  | abort (e : AwsError)
deriving DecidableEq, Repr

/-- Outcome of the whole `resource.Retry` loop: success, a non-retryable
error, or expiry of the timeout. -/
inductive RetryResult (α : Type) where
  | ok (a : α)
  | err (e : AwsError)
  | timeout
deriving DecidableEq, Repr

/-- Modelled from the spec: the terraform helper `resource.Retry` (the
helper library itself is not part of this repository) — "retry for up to
5 minutes on a named transient error code": the body is re-invoked once
per time unit while it reports a retryable error, stops at once on
success or on a non-retryable error, and fails when the time budget
(seconds of the timeout, one attempt per second) is exhausted.
`n` is the index of the current attempt, `fuel` the remaining budget. -/
def resourceRetryAux (f : Nat → RetryDecision α) : Nat → Nat → RetryResult α
  | _, 0 => RetryResult.timeout
  | n, fuel + 1 =>
    match f n with
    | .done a => RetryResult.ok a
    | .abort e => RetryResult.err e
    | .retry _ => resourceRetryAux f (n + 1) fuel

/-- Wrapper `resource.Retry(timeout, f)` starting at attempt 0 with the full
budget. -/
def resourceRetry (timeout : Nat) (f : Nat → RetryDecision α) : RetryResult α :=
  resourceRetryAux f 0 timeout

/-- The `5*time.Minute` timeout of the `resource.Retry` wrapper around
`CreateListener` in `resourceAwsLbListenerCreate`, in seconds. -/
def createListenerRetryTimeout : Nat := 5 * 60

/-- The `5*time.Minute` timeout of the `resource.Retry` wrapper around
`ModifyListener` in `resourceAwsLbListenerUpdate`, in seconds. -/
def modifyListenerRetryTimeout : Nat := 5 * 60

/-- The `3*time.Minute` timeout of the `resource.StateChangeConf` wait in
`resourceAwsLbListenerCreate`, in seconds. -/
def lbListenerExistTimeout : Nat := 3 * 60

/-- The body of the `resource.Retry` closure in
`resourceAwsLbListenerCreate` (lines 130-141): a failed `CreateListener`
call is retryable exactly when `isAWSErr(err,
elbv2.ErrCodeCertificateNotFoundException, "")`, any other failure is
non-retryable, success ends the loop. -/
def createListenerRetryDecision (r : Except AwsError α) : RetryDecision α :=
  match r with
  | .ok a => RetryDecision.done a
  | .error e =>
    if isAWSErr e errCodeCertificateNotFoundException "" then RetryDecision.retry e
    else RetryDecision.abort e

/-- The body of the `resource.Retry` closure in
`resourceAwsLbListenerUpdate` (lines 277-286): a failed `ModifyListener`
call is retryable exactly when `isAWSErr(err,
elbv2.ErrCodeCertificateNotFoundException, "")`, any other failure is
non-retryable, success ends the loop. -/
def modifyListenerRetryDecision (r : Except AwsError α) : RetryDecision α :=
  match r with
  | .ok a => RetryDecision.done a
  | .error e =>
    if isAWSErr e errCodeCertificateNotFoundException "" then RetryDecision.retry e
    else RetryDecision.abort e

/-- Struct `elbv2.Certificate` (only the field the resource uses). -/
structure Certificate where
  certificateArn : String
deriving DecidableEq, Repr

/-- Struct `elbv2.Action` (only the fields the resource uses). -/
structure Action where
  targetGroupArn : String
  type : String
deriving DecidableEq, Repr

/-- Struct `elbv2.Listener` (only the fields the resource reads). -/
structure Listener where
  listenerArn : String
  loadBalancerArn : String
  port : Int
  protocol : String
  sslPolicy : Option String
  certificates : List Certificate
  defaultActions : List Action
deriving DecidableEq, Repr

/-- A `default_action` block of the configuration schema. -/
structure DefaultAction where
  target_group_arn : String
  type : String
deriving DecidableEq, Repr

/-- The `*schema.ResourceData` state of the `aws_lb_listener` resource:
the resource ID plus the schema attributes. An optional string attribute
is `none` when unset (`d.GetOk` then reports absence). -/
structure ResourceData where
  id : String
  arn : String
  load_balancer_arn : String
  port : Int
  protocol : String
  ssl_policy : Option String
  certificate_arn : Option String
  default_action : List DefaultAction
deriving DecidableEq, Repr

/-- Struct `elbv2.CreateListenerInput` (the fields the resource sets). -/
structure CreateListenerInput where
  loadBalancerArn : String
  port : Int
  protocol : String
  sslPolicy : Option String
  certificates : List Certificate
  defaultActions : List Action
deriving DecidableEq, Repr

/-- Struct `elbv2.ModifyListenerInput` (the fields the resource sets). -/
structure ModifyListenerInput where
  listenerArn : String
  port : Int
  protocol : String
  sslPolicy : Option String
  certificates : List Certificate
  defaultActions : List Action
deriving DecidableEq, Repr

/-- Struct `elbv2.CreateListenerOutput`. -/
structure CreateListenerOutput where
  listeners : List Listener
deriving DecidableEq, Repr

/-- The params construction of `resourceAwsLbListenerCreate`
(lines 96-126): required fields always, `ssl_policy` and
`certificate_arn` only when `d.GetOk` reports them set, default actions
copied when the list has exactly one element. -/
def buildCreateListenerInput (d : ResourceData) : CreateListenerInput :=
  { loadBalancerArn := d.load_balancer_arn
    port := d.port
    protocol := d.protocol
    sslPolicy := d.ssl_policy
    certificates :=
      match d.certificate_arn with
      | some arn => [{ certificateArn := arn }]
      | none => []
    defaultActions :=
      if d.default_action.length = 1 then
        d.default_action.map (fun a => { targetGroupArn := a.target_group_arn, type := a.type })
      else [] }

/-- The params construction of `resourceAwsLbListenerUpdate`
(lines 247-275), same shape as create but keyed by the listener ARN. -/
def buildModifyListenerInput (d : ResourceData) : ModifyListenerInput :=
  { listenerArn := d.id
    port := d.port
    protocol := d.protocol
    sslPolicy := d.ssl_policy
    certificates :=
      match d.certificate_arn with
      | some arn => [{ certificateArn := arn }]
      | none => []
    defaultActions :=
      if d.default_action.length = 1 then
        d.default_action.map (fun a => { targetGroupArn := a.target_group_arn, type := a.type })
      else [] }

/-- The remote ELBv2 API, as the resource observes it: each operation maps
its request and an attempt index (the n-th invocation made by the
lifecycle handler) to that invocation's outcome. -/
structure ApiEnv where
  createListener : CreateListenerInput → Nat → Except AwsError CreateListenerOutput
  modifyListener : ModifyListenerInput → Nat → Except AwsError Unit
  describeListeners : String → Nat → Except AwsError (List Listener)
  deleteListener : String → Nat → Except AwsError Unit

/-- Function `resourceAwsLbListenerRefreshFunc` (lines 217-242) applied to one
describe outcome: a `ListenerNotFoundException` failure is converted to
the pending result `(nil, "", nil)`; any other failure is wrapped by
`fmt.Errorf` into a plain error; a successful describe yields
`(listener, "exists")` when it holds exactly one listener and a plain
error otherwise. -/
def resourceAwsLbListenerRefreshFunc (id : String)
    (describe : Except AwsError (List Listener)) :
    Except GoError (Option Listener × String) :=
  match describe with
  | .error e =>
    if isAWSErr e errCodeListenerNotFoundException "" then
      Except.ok (none, "")
    else
      Except.error (GoError.plain ("Error retrieving Listener: " ++ e.message))
  | .ok listeners =>
    match listeners with
    | [l] => Except.ok (some l, "exists")
    | ls =>
      Except.error (GoError.plain
        ("Error retrieving Listener " ++ id ++ " (expected 1, got " ++
          toString ls.length ++ ")"))

/-- Modelled from the spec: the terraform helper
`resource.StateChangeConf.WaitForState` (the helper library is not part of
this repository) — "poll a describe-call every interval until the object's
existence is observed, with a 3-minute timeout": the refresh function is
invoked once per time unit; a refresh error fails the wait, the target
state `"exists"` ends it with the observed object, the pending empty state
continues, and an exhausted budget fails the wait. -/
def waitForStateAux (refresh : Nat → Except GoError (Option Listener × String)) :
    Nat → Nat → Except GoError Listener
  | _, 0 => Except.error (GoError.plain "timeout while waiting for state to become exists")
  | n, fuel + 1 =>
    match refresh n with
    | .error e => Except.error e
    | .ok (obj, state) =>
      if state = "exists" then
        match obj with
        | some l => Except.ok l
        | none => Except.error (GoError.plain "target state reached with nil result")
      else waitForStateAux refresh (n + 1) fuel

/-- The wait loop started at poll 0 with the full time budget. -/
def waitForState (timeout : Nat)
    (refresh : Nat → Except GoError (Option Listener × String)) :
    Except GoError Listener :=
  waitForStateAux refresh 0 timeout

/-- Function `resourceAwsLbListenerReadData` (lines 193-215): copy the listener's
fields into the resource state; `certificate_arn` only when the listener
carries exactly one certificate; default actions always (an absent list
becomes the empty list). -/
def resourceAwsLbListenerReadData (d : ResourceData) (l : Listener) : ResourceData :=
  let d1 := { d with
    arn := l.listenerArn
    load_balancer_arn := l.loadBalancerArn
    port := l.port
    protocol := l.protocol
    ssl_policy := l.sslPolicy }
  let d2 :=
    match l.certificates with
    | [c] => { d1 with certificate_arn := some c.certificateArn }
    | _ => d1
  { d2 with
    default_action := l.defaultActions.map
      (fun a => { target_group_arn := a.targetGroupArn, type := a.type }) }

/-- Function `resourceAwsLbListenerCreate` (lines 93-170): build the request, call
`CreateListener` under `resource.Retry(5*time.Minute, ...)` retrying
exactly on `CertificateNotFoundException`; on failure return an error
with the state untouched; on an empty listener list in the response
return an error; otherwise `d.SetId` the new listener's ARN, wait up to
3 minutes for the describe call to observe the listener, and on success
populate the state from the observed listener. The returned pair is the
final resource state and the returned Go error (`none` = `nil`). -/
def resourceAwsLbListenerCreate (d : ResourceData) (env : ApiEnv) :
    ResourceData × Option String :=
  let params := buildCreateListenerInput d
  match resourceRetry createListenerRetryTimeout
      (fun n => createListenerRetryDecision (env.createListener params n)) with
  | .err e => (d, some ("Error creating LB Listener: " ++ e.message))
  | .timeout => (d, some "Error creating LB Listener: timeout while waiting for state")
  | .ok resp =>
    match resp.listeners with
    | [] => (d, some "Error creating LB Listener: no listeners returned in response")
    | l0 :: _ =>
      let d1 := { d with id := l0.listenerArn }
      match waitForState lbListenerExistTimeout
          (fun n => resourceAwsLbListenerRefreshFunc d1.id (env.describeListeners d1.id n)) with
      | .error _ => (d1, some ("Error waiting for LB Listener (" ++ d1.id ++ ") to exist"))
      | .ok l => (resourceAwsLbListenerReadData d1 l, none)

/-- Function `resourceAwsLbListenerRead` (lines 172-191): one refresh; on an error
satisfying `isAWSErr(err, ListenerNotFoundException, "")` clear the ID and
return `nil`; on any other error return it wrapped; on a `nil` object
clear the ID and return `nil`; otherwise populate the state. -/
def resourceAwsLbListenerRead (d : ResourceData) (env : ApiEnv) :
    ResourceData × Option String :=
  match resourceAwsLbListenerRefreshFunc d.id (env.describeListeners d.id 0) with
  | .error e =>
    if isAWSErrGo e errCodeListenerNotFoundException "" then
      ({ d with id := "" }, none)
    else
      (d, some ("Error retrieving Listener: " ++
        match e with
        | .aws a => a.message
        | .plain m => m))
  | .ok (none, _) => ({ d with id := "" }, none)
  | .ok (some l, _) => (resourceAwsLbListenerReadData d l, none)

/-- Function `resourceAwsLbListenerUpdate` (lines 244-292): build the request, call
`ModifyListener` under `resource.Retry(5*time.Minute, ...)` retrying
exactly on `CertificateNotFoundException`; on failure return an error;
on success delegate to `resourceAwsLbListenerRead`. -/
def resourceAwsLbListenerUpdate (d : ResourceData) (env : ApiEnv) :
    ResourceData × Option String :=
  let params := buildModifyListenerInput d
  match resourceRetry modifyListenerRetryTimeout
      (fun n => modifyListenerRetryDecision (env.modifyListener params n)) with
  | .err e => (d, some ("Error modifying LB Listener: " ++ e.message))
  | .timeout => (d, some "Error modifying LB Listener: timeout while waiting for state")
  | .ok _ => resourceAwsLbListenerRead d env

/-- Function `resourceAwsLbListenerDelete` (lines 294-305): one direct
`DeleteListener` call, no retry wrapper; any failure is returned wrapped,
success returns `nil` with the state untouched. -/
def resourceAwsLbListenerDelete (d : ResourceData) (env : ApiEnv) :
    ResourceData × Option String :=
  match env.deleteListener d.id 0 with
  | .error e => (d, some ("Error deleting Listener: " ++ e.message))
  | .ok _ => (d, none)

end LbListener

namespace ServiceTags

/-- List `sliceServiceNames` of `generators/servicetags/main.go` (lines 20-96),
in source order ("autoscaling" is commented out in the source and so
absent): the services whose tags are `[]*SERVICE.Tag`-shaped. -/
def sliceServiceNames : List String :=
  ["acm", "acmpca", "appmesh", "athena", "cloud9", "cloudformation",
   "cloudfront", "cloudhsmv2", "cloudtrail", "cloudwatch",
   "cloudwatchevents", "codebuild", "codedeploy", "codepipeline",
   "configservice", "databasemigrationservice", "datapipeline", "datasync",
   "dax", "devicefarm", "directconnect", "directoryservice", "docdb",
   "dynamodb", "ec2", "ecr", "ecs", "efs", "elasticache",
   "elasticbeanstalk", "elasticsearchservice", "elb", "elbv2", "emr",
   "firehose", "fms", "fsx", "gamelift", "globalaccelerator", "iam",
   "inspector", "iot", "iotanalytics", "iotevents", "kinesis",
   "kinesisanalytics", "kinesisanalyticsv2", "kms", "licensemanager",
   "lightsail", "mediastore", "neptune", "organizations", "quicksight",
   "ram", "rds", "redshift", "route53", "route53resolver", "s3",
   "sagemaker", "secretsmanager", "serverlessapplicationrepository",
   "servicecatalog", "sfn", "sns", "ssm", "storagegateway", "swf",
   "transfer", "waf", "wafregional", "wafv2", "workspaces"]

/-- List `mapServiceNames` of `generators/servicetags/main.go` (lines 98-134),
in source order (note the source list is not itself sorted): the services
whose tags are `map[string]*string`-shaped. -/
def mapServiceNames : List String :=
  ["accessanalyzer", "amplify", "apigateway", "apigatewayv2", "appstream",
   "appsync", "backup", "batch", "cloudwatchlogs", "codecommit",
   "codestarnotifications", "cognitoidentity", "cognitoidentityprovider",
   "dataexchange", "dlm", "eks", "glacier", "glue", "guardduty",
   "greengrass", "kafka", "kinesisvideo", "imagebuilder", "lambda",
   "mediaconnect", "mediaconvert", "medialive", "mediapackage", "mq",
   "opsworks", "qldb", "pinpoint", "resourcegroups", "securityhub", "sqs"]

/-- Function `ServiceTagKeyType` (lines 271-278): only `elb` has a key-only tag
type; the empty string means none. -/
def ServiceTagKeyType (serviceName : String) : String :=
  if serviceName = "elb" then "TagKeyOnly" else ""

/-- Function `ServiceTagType` (lines 281-294): the service-specific tag struct
name. -/
def ServiceTagType (serviceName : String) : String :=
  if serviceName = "appmesh" then "TagRef"
  else if serviceName = "datasync" then "TagListEntry"
  else if serviceName = "fms" then "ResourceTag"
  else if serviceName = "swf" then "ResourceTag"
  else "Tag"

/-- Function `ServiceTagTypeKeyField` (lines 297-304): the key field of the
service's tag struct. -/
def ServiceTagTypeKeyField (serviceName : String) : String :=
  if serviceName = "kms" then "TagKey" else "Key"

/-- Function `ServiceTagTypeValueField` (lines 307-314): the value field of the
service's tag struct. -/
def ServiceTagTypeValueField (serviceName : String) : String :=
  if serviceName = "kms" then "TagValue" else "Value"

/-- Which of the two tag request/response shapes a generated function
translates to. -/
inductive TagShape where
  | mapOfString
  | sliceOfStruct
deriving DecidableEq, Repr

/-- The role of a generated function: container-to-service-shape
(`...Tags`), service-shape-to-container (`...KeyValueTags`), or the
key-only variant (`...TagKeys`, emitted only when `ServiceTagKeyType` is
non-empty). -/
inductive FuncRole where
  | toTags
  | fromTags
  | toTagKeys
deriving DecidableEq, Repr

/-- A function emitted by one template instantiation: the service it is
for, the Go identifier, its role and shape, and the service-specific
type and field names spliced into its body. -/
structure EmittedFunc where
  service : String
  name : String
  role : FuncRole
  shape : TagShape
  tagType : String
  keyField : String
  valueField : String
deriving DecidableEq, Repr

/-- The `map[string]*string handling` section of `templateBody`
(lines 208-219): for one map-shape service, one `{Title}Tags` method and
one `{Title}KeyValueTags` function (the map shape has no per-service
type or field names). -/
def emitMapService (s : String) : List EmittedFunc :=
  [{ service := s, name := s.capitalize ++ "Tags", role := FuncRole.toTags,
     shape := TagShape.mapOfString, tagType := "", keyField := "", valueField := "" },
   { service := s, name := s.capitalize ++ "KeyValueTags", role := FuncRole.fromTags,
     shape := TagShape.mapOfString, tagType := "", keyField := "", valueField := "" }]

/-- The `[]*SERVICE.Tag handling` section of `templateBody`
(lines 222-267): for one slice-shape service, an optional
`{Title}TagKeys` method when `ServiceTagKeyType` is non-empty, then one
`{Title}Tags` method and one `{Title}KeyValueTags` function, with the
service-specific tag type and key/value field names. -/
def emitSliceService (s : String) : List EmittedFunc :=
  (if ServiceTagKeyType s ≠ "" then
     [{ service := s, name := s.capitalize ++ "TagKeys", role := FuncRole.toTagKeys,
        shape := TagShape.sliceOfStruct, tagType := ServiceTagKeyType s,
        keyField := ServiceTagTypeKeyField s, valueField := "" }]
   else []) ++
  [{ service := s, name := s.capitalize ++ "Tags", role := FuncRole.toTags,
     shape := TagShape.sliceOfStruct, tagType := ServiceTagType s,
     keyField := ServiceTagTypeKeyField s, valueField := ServiceTagTypeValueField s },
   { service := s, name := s.capitalize ++ "KeyValueTags", role := FuncRole.fromTags,
     shape := TagShape.sliceOfStruct, tagType := ServiceTagType s,
     keyField := ServiceTagTypeKeyField s, valueField := ServiceTagTypeValueField s }]

/-- Call `sort.Strings(mapServiceNames)` in `main` (line 143), modelled as an
ascending insertion sort. -/
def sortedMapServiceNames : List String :=
  List.insertionSort (· ≤ ·) mapServiceNames

/-- Call `sort.Strings(sliceServiceNames)` in `main` (line 144). -/
def sortedSliceServiceNames : List String :=
  List.insertionSort (· ≤ ·) sliceServiceNames

/-- The functions emitted by one execution of `templateBody` over the
sorted lists, in emission order: the whole map section, then the whole
slice section. -/
def generatorOutput : List EmittedFunc :=
  sortedMapServiceNames.flatMap emitMapService ++
    sortedSliceServiceNames.flatMap emitSliceService

/-- A Go `map[string]string`, as an association list in which a later
assignment to a present key overwrites in place and an absent key is
appended. Used both for the generic key/value tag container (the
`keyvaluetags.KeyValueTags` type is not part of this repository's
sources; modelled from the spec: "a generic key/value tag container")
and for the `map[string]*string` the generated `KeyValueTags` function
builds. -/
abbrev GoMap : Type := List (String × String)

/-- The Go assignment `m[k] = v`. -/
def mapInsert (m : GoMap) (k v : String) : GoMap :=
  if m.any (fun p => p.1 == k) then
    m.map (fun p => if p.1 == k then (k, v) else p)
  else m ++ [(k, v)]

/-- A service tag struct of the slice shape; every slice service's struct
has one key and one value field (under its service-specific names). -/
structure ServiceTag where
  key : String
  value : String
deriving DecidableEq, Repr

/-- The generated `{Title}Tags` body for a slice service (template
lines 241-255): iterate the container's map and build one tag struct per
entry, key and value copied. The container's iteration order is taken to
be its list order. -/
def serviceTags (tags : GoMap) : List ServiceTag :=
  tags.map (fun p => { key := p.1, value := p.2 })

/-- The generated `{Title}KeyValueTags` body for a slice service (template
lines 257-266): fold the tag structs into a fresh map by Go assignment,
then wrap it as a container (`keyvaluetags.New` on a string map is the
container of exactly those entries; modelled from the spec: the
`keyvaluetags` package is not in this repository's sources). -/
def serviceKeyValueTags (tags : List ServiceTag) : GoMap :=
  tags.foldl (fun m t => mapInsert m t.key t.value) []

end ServiceTags

namespace LbListener

/-! ## Helper lemmas about the retry and wait loops -/

/-- A retry loop with remaining budget ends at once when the current
attempt succeeds. -/
theorem resourceRetryAux_done (f : Nat → RetryDecision α) (n fuel : Nat) (a : α)
    (hfuel : 0 < fuel) (h : f n = RetryDecision.done a) :
    resourceRetryAux f n fuel = RetryResult.ok a := by
  cases fuel with
  | zero => omega
  | succ m => simp [resourceRetryAux, h]

/-- A retry loop whose first `n` attempts are retryable and whose attempt
`n` is non-retryable stops at attempt `n` with that error, provided the
budget reaches it. -/
theorem resourceRetryAux_abort (f : Nat → RetryDecision α) :
    ∀ (n start fuel : Nat) (e : AwsError), n < fuel →
      (∀ k, k < n → ∃ e2, f (start + k) = RetryDecision.retry e2) →
      f (start + n) = RetryDecision.abort e →
      resourceRetryAux f start fuel = RetryResult.err e := by
  intro n
  induction n with
  | zero =>
    intro start fuel e hlt _ habort
    cases fuel with
    | zero => omega
    | succ m =>
      rw [Nat.add_zero] at habort
      simp [resourceRetryAux, habort]
  | succ n ih =>
    intro start fuel e hlt hret habort
    cases fuel with
    | zero => omega
    | succ m =>
      obtain ⟨e0, he0⟩ := hret 0 (Nat.succ_pos n)
      rw [Nat.add_zero] at he0
      have hrec := ih (start + 1) m e (by omega)
        (fun k hk => by
          obtain ⟨e2, he2⟩ := hret (k + 1) (by omega)
          exact ⟨e2, by rw [show start + 1 + k = start + (k + 1) by omega]; exact he2⟩)
        (by rw [show start + 1 + n = start + (n + 1) by omega]; exact habort)
      simp [resourceRetryAux, he0, hrec]

/-- A wait loop all of whose polls within the budget report the pending
empty state expires with the timeout error. -/
theorem waitForStateAux_timeout (refresh : Nat → Except GoError (Option Listener × String)) :
    ∀ (fuel start : Nat),
      (∀ k, k < fuel → refresh (start + k) = Except.ok (none, "")) →
      waitForStateAux refresh start fuel =
        Except.error (GoError.plain "timeout while waiting for state to become exists") := by
  intro fuel
  induction fuel with
  | zero => intro start _; rfl
  | succ m ih =>
    intro start h
    have h0 := h 0 (Nat.succ_pos m)
    rw [Nat.add_zero] at h0
    have hrec := ih (start + 1) (fun k hk => by
      have := h (k + 1) (by omega)
      rw [show start + 1 + k = start + (k + 1) by omega]
      exact this)
    simp [waitForStateAux, h0, hrec]

/-- A wait loop whose polls report pending until poll `j` reports the
target state `"exists"` with a listener returns that listener, provided
the budget reaches poll `j`. -/
theorem waitForStateAux_success (refresh : Nat → Except GoError (Option Listener × String)) :
    ∀ (j start fuel : Nat) (l : Listener), j < fuel →
      (∀ k, k < j → refresh (start + k) = Except.ok (none, "")) →
      refresh (start + j) = Except.ok (some l, "exists") →
      waitForStateAux refresh start fuel = Except.ok l := by
  intro j
  induction j with
  | zero =>
    intro start fuel l hlt _ hexists
    cases fuel with
    | zero => omega
    | succ m =>
      rw [Nat.add_zero] at hexists
      simp [waitForStateAux, hexists]
  | succ j ih =>
    intro start fuel l hlt hpend hexists
    cases fuel with
    | zero => omega
    | succ m =>
      have h0 := hpend 0 (Nat.succ_pos j)
      rw [Nat.add_zero] at h0
      have hrec := ih (start + 1) m l (by omega)
        (fun k hk => by
          have := hpend (k + 1) (by omega)
          rw [show start + 1 + k = start + (k + 1) by omega]
          exact this)
        (by rw [show start + 1 + j = start + (j + 1) by omega]; exact hexists)
      simp [waitForStateAux, h0, hrec]

/-! ## Claim theorems about the listener resource -/

/-- C1: for every create request, the `CreateListener` call is retried for
up to 5 minutes; a retry occurs exactly when the call fails with the
certificate-not-found error code; a failure with any other code aborts the
loop at once and Create returns an error with the resource ID (indeed the
whole state) unchanged. The abort scenario: attempts `0..n-1` fail with
the transient code and attempt `n` fails with a different one. -/
theorem create_retry_on_certificate_not_found
    (d : ResourceData) (env : ApiEnv) (n : Nat) (e : AwsError)
    (hfuel : n < createListenerRetryTimeout)
    (hretries : ∀ k, k < n →
      ∃ e2, env.createListener (buildCreateListenerInput d) k = Except.error e2 ∧
        isAWSErr e2 errCodeCertificateNotFoundException "" = true)
    (herr : env.createListener (buildCreateListenerInput d) n = Except.error e)
    (hother : isAWSErr e errCodeCertificateNotFoundException "" = false) :
    createListenerRetryTimeout = 5 * 60 ∧
    (∀ (r : Except AwsError CreateListenerOutput) (e2 : AwsError),
      createListenerRetryDecision r = RetryDecision.retry e2 ↔
        r = Except.error e2 ∧ isAWSErr e2 errCodeCertificateNotFoundException "" = true) ∧
    resourceAwsLbListenerCreate d env =
      (d, some ("Error creating LB Listener: " ++ e.message)) := by
  refine ⟨rfl, ?_, ?_⟩
  · intro r e2
    constructor
    · intro h
      cases r with
      | ok a => simp [createListenerRetryDecision] at h
      | error e3 =>
        by_cases hc : isAWSErr e3 errCodeCertificateNotFoundException "" = true
        · simp [createListenerRetryDecision, hc] at h
          subst h
          exact ⟨rfl, hc⟩
        · simp [createListenerRetryDecision, hc] at h
    · rintro ⟨rfl, hc⟩
      simp [createListenerRetryDecision, hc]
  · have habort : resourceRetry createListenerRetryTimeout
        (fun k => createListenerRetryDecision (env.createListener (buildCreateListenerInput d) k)) =
        RetryResult.err e := by
      apply resourceRetryAux_abort _ n 0 createListenerRetryTimeout e hfuel
      · intro k hk
        obtain ⟨e2, he2, hc⟩ := hretries k hk
        refine ⟨e2, ?_⟩
        rw [Nat.zero_add]
        simp [he2, createListenerRetryDecision, hc]
      · rw [Nat.zero_add]
        simp [herr, createListenerRetryDecision, hother]
    simp only [resourceAwsLbListenerCreate, habort]

/-- Concrete run of `create_retry_on_certificate_not_found`: attempt 0
fails with the transient certificate code, attempt 1 with a different
code; Create aborts with that error and an unchanged state. -/
theorem create_retry_on_certificate_not_found_witness :
    resourceAwsLbListenerCreate
      { id := "", arn := "", load_balancer_arn := "arn:lb", port := 80,
        protocol := "HTTP", ssl_policy := none, certificate_arn := none,
        default_action := [] }
      { createListener := fun _ k =>
          if k = 0 then Except.error { code := "CertificateNotFound", message := "soon" }
          else Except.error { code := "AccessDenied", message := "denied" }
        modifyListener := fun _ _ => Except.ok ()
        describeListeners := fun _ _ => Except.ok []
        deleteListener := fun _ _ => Except.ok () } =
      ({ id := "", arn := "", load_balancer_arn := "arn:lb", port := 80,
         protocol := "HTTP", ssl_policy := none, certificate_arn := none,
         default_action := [] },
       some "Error creating LB Listener: denied") := by
  have h := create_retry_on_certificate_not_found
    { id := "", arn := "", load_balancer_arn := "arn:lb", port := 80,
      protocol := "HTTP", ssl_policy := none, certificate_arn := none,
      default_action := [] }
    { createListener := fun _ k =>
        if k = 0 then Except.error { code := "CertificateNotFound", message := "soon" }
        else Except.error { code := "AccessDenied", message := "denied" }
      modifyListener := fun _ _ => Except.ok ()
      describeListeners := fun _ _ => Except.ok []
      deleteListener := fun _ _ => Except.ok () }
    1 { code := "AccessDenied", message := "denied" }
    (by decide)
    (fun k hk => by
      have hk0 : k = 0 := by omega
      subst hk0
      exact ⟨{ code := "CertificateNotFound", message := "soon" }, rfl, by decide⟩)
    rfl
    (by decide)
  exact h.2.2

/-- C5: the retry policy is one fixed policy: Create's wrapper around
`CreateListener` and Update's wrapper around `ModifyListener` share the
5-minute timeout and the retryability predicate (retryable exactly on the
certificate-not-found code), so the two wrappers agree on every sequence
of inner-call outcomes. -/
theorem create_update_same_retry_policy :
    createListenerRetryTimeout = modifyListenerRetryTimeout ∧
    createListenerRetryTimeout = 5 * 60 ∧
    (∀ (α : Type) (r : Except AwsError α),
      createListenerRetryDecision r = modifyListenerRetryDecision r) ∧
    (∀ (α : Type) (f : Nat → Except AwsError α),
      resourceRetry createListenerRetryTimeout (fun n => createListenerRetryDecision (f n)) =
        resourceRetry modifyListenerRetryTimeout (fun n => modifyListenerRetryDecision (f n))) ∧
    (∀ (r : Except AwsError Unit) (e : AwsError),
      modifyListenerRetryDecision r = RetryDecision.retry e ↔
        r = Except.error e ∧ isAWSErr e errCodeCertificateNotFoundException "" = true) := by
  refine ⟨rfl, rfl, ?_, ?_, ?_⟩
  · intro α r
    cases r with
    | ok a => rfl
    | error e => rfl
  · intro α f
    rfl
  · intro r e
    constructor
    · intro h
      cases r with
      | ok a => simp [modifyListenerRetryDecision] at h
      | error e2 =>
        by_cases hc : isAWSErr e2 errCodeCertificateNotFoundException "" = true
        · simp [modifyListenerRetryDecision, hc] at h
          subst h
          exact ⟨rfl, hc⟩
        · simp [modifyListenerRetryDecision, hc] at h
    · rintro ⟨rfl, hc⟩
      simp [modifyListenerRetryDecision, hc]

/-- C2: after a successful `CreateListener` call, Create polls the
describe-based refresh function, whose state is `"exists"` exactly when
the describe response holds exactly one listener and the pending empty
state when the listener is not found, under a 3-minute timeout: polls that
stay pending for the whole budget make Create return the waiting error,
and a poll that observes the listener before the budget expires makes
Create succeed with the state read from the observed listener. -/
theorem create_waits_for_listener_existence
    (d : ResourceData) (env : ApiEnv) (resp : CreateListenerOutput)
    (l0 : Listener) (rest : List Listener)
    (hcreate : env.createListener (buildCreateListenerInput d) 0 = Except.ok resp)
    (hresp : resp.listeners = l0 :: rest) :
    lbListenerExistTimeout = 3 * 60 ∧
    (∀ (id : String) (ls : List Listener) (l : Listener),
      resourceAwsLbListenerRefreshFunc id (Except.ok ls) = Except.ok (some l, "exists") ↔
        ls = [l]) ∧
    (∀ (id : String) (e : AwsError),
      isAWSErr e errCodeListenerNotFoundException "" = true →
        resourceAwsLbListenerRefreshFunc id (Except.error e) = Except.ok (none, "")) ∧
    ((∀ k, k < lbListenerExistTimeout →
        resourceAwsLbListenerRefreshFunc l0.listenerArn
          (env.describeListeners l0.listenerArn k) = Except.ok (none, "")) →
      resourceAwsLbListenerCreate d env =
        ({ d with id := l0.listenerArn },
         some ("Error waiting for LB Listener (" ++ l0.listenerArn ++ ") to exist"))) ∧
    (∀ (j : Nat) (l : Listener), j < lbListenerExistTimeout →
      (∀ k, k < j →
        resourceAwsLbListenerRefreshFunc l0.listenerArn
          (env.describeListeners l0.listenerArn k) = Except.ok (none, "")) →
      env.describeListeners l0.listenerArn j = Except.ok [l] →
      resourceAwsLbListenerCreate d env =
        (resourceAwsLbListenerReadData { d with id := l0.listenerArn } l, none)) := by
  have hretry : resourceRetry createListenerRetryTimeout
      (fun k => createListenerRetryDecision (env.createListener (buildCreateListenerInput d) k)) =
      RetryResult.ok resp := by
    apply resourceRetryAux_done _ 0 _ resp (by decide)
    simp [hcreate, createListenerRetryDecision]
  refine ⟨rfl, ?_, ?_, ?_, ?_⟩
  · intro id ls l
    constructor
    · intro h
      cases ls with
      | nil => simp [resourceAwsLbListenerRefreshFunc] at h
      | cons x xs =>
        cases xs with
        | nil =>
          simp [resourceAwsLbListenerRefreshFunc] at h
          rw [h]
        | cons y ys => simp [resourceAwsLbListenerRefreshFunc] at h
    · rintro rfl
      rfl
  · intro id e he
    simp [resourceAwsLbListenerRefreshFunc, he]
  · intro hpend
    have hwait := waitForStateAux_timeout
      (fun n => resourceAwsLbListenerRefreshFunc l0.listenerArn
        (env.describeListeners l0.listenerArn n))
      lbListenerExistTimeout 0
      (fun k hk => by rw [Nat.zero_add]; exact hpend k hk)
    simp only [resourceAwsLbListenerCreate, hretry, hresp, waitForState]
    rw [hwait]
  · intro j l hj hpend hfound
    have hexists : resourceAwsLbListenerRefreshFunc l0.listenerArn
        (env.describeListeners l0.listenerArn j) = Except.ok (some l, "exists") := by
      rw [hfound]
      rfl
    have hwait := waitForStateAux_success
      (fun n => resourceAwsLbListenerRefreshFunc l0.listenerArn
        (env.describeListeners l0.listenerArn n))
      j 0 lbListenerExistTimeout l hj
      (fun k hk => by rw [Nat.zero_add]; exact hpend k hk)
      (by rw [Nat.zero_add]; exact hexists)
    simp only [resourceAwsLbListenerCreate, hretry, hresp, waitForState]
    rw [hwait]

/-- Concrete run of `create_waits_for_listener_existence`: the listener is
created on attempt 0 and the describe call observes it on poll 2; Create
succeeds and reads the listener's data into the state. -/
theorem create_waits_for_listener_existence_witness :
    resourceAwsLbListenerCreate
      { id := "", arn := "", load_balancer_arn := "arn:lb", port := 80,
        protocol := "HTTP", ssl_policy := none, certificate_arn := none,
        default_action := [] }
      { createListener := fun _ _ => Except.ok { listeners :=
          [{ listenerArn := "arn:l1", loadBalancerArn := "arn:lb", port := 80,
             protocol := "HTTP", sslPolicy := none, certificates := [],
             defaultActions := [] }] }
        modifyListener := fun _ _ => Except.ok ()
        describeListeners := fun _ k =>
          if k < 2 then Except.error { code := "ListenerNotFound", message := "" }
          else Except.ok
            [{ listenerArn := "arn:l1", loadBalancerArn := "arn:lb", port := 80,
               protocol := "HTTP", sslPolicy := none, certificates := [],
               defaultActions := [] }]
        deleteListener := fun _ _ => Except.ok () } =
      ({ id := "arn:l1", arn := "arn:l1", load_balancer_arn := "arn:lb", port := 80,
         protocol := "HTTP", ssl_policy := none, certificate_arn := none,
         default_action := [] }, none) := by
  have h := create_waits_for_listener_existence
    { id := "", arn := "", load_balancer_arn := "arn:lb", port := 80,
      protocol := "HTTP", ssl_policy := none, certificate_arn := none,
      default_action := [] }
    { createListener := fun _ _ => Except.ok { listeners :=
        [{ listenerArn := "arn:l1", loadBalancerArn := "arn:lb", port := 80,
           protocol := "HTTP", sslPolicy := none, certificates := [],
           defaultActions := [] }] }
      modifyListener := fun _ _ => Except.ok ()
      describeListeners := fun _ k =>
        if k < 2 then Except.error { code := "ListenerNotFound", message := "" }
        else Except.ok
          [{ listenerArn := "arn:l1", loadBalancerArn := "arn:lb", port := 80,
             protocol := "HTTP", sslPolicy := none, certificates := [],
             defaultActions := [] }]
      deleteListener := fun _ _ => Except.ok () }
    { listeners :=
        [{ listenerArn := "arn:l1", loadBalancerArn := "arn:lb", port := 80,
           protocol := "HTTP", sslPolicy := none, certificates := [],
           defaultActions := [] }] }
    { listenerArn := "arn:l1", loadBalancerArn := "arn:lb", port := 80,
      protocol := "HTTP", sslPolicy := none, certificates := [],
      defaultActions := [] }
    [] rfl rfl
  have hfinal := h.2.2.2.2 2
    { listenerArn := "arn:l1", loadBalancerArn := "arn:lb", port := 80,
      protocol := "HTTP", sslPolicy := none, certificates := [],
      defaultActions := [] }
    (by decide)
    (fun k hk => by
      interval_cases k <;> rfl)
    rfl
  rw [hfinal]
  rfl

/-- A fixed resource state used to exercise Delete and Read on concrete
call outcomes. -/
def sampleListenerState : ResourceData :=
  { id := "arn:l1", arn := "arn:l1", load_balancer_arn := "arn:lb", port := 80,
    protocol := "HTTP", ssl_policy := none, certificate_arn := none,
    default_action := [] }

/-- An environment whose `DeleteListener` fails on its first invocation
with the known transient certificate-not-found code and succeeds on every
later invocation. -/
def deleteTransientEnv : ApiEnv :=
  { createListener := fun _ _ => Except.ok { listeners := [] }
    modifyListener := fun _ _ => Except.ok ()
    describeListeners := fun _ _ => Except.ok []
    deleteListener := fun _ k =>
      if k = 0 then Except.error { code := "CertificateNotFound", message := "soon" }
      else Except.ok () }

/-- C3 refutation: Delete does not wrap `DeleteListener` in the bounded
retry. On a call sequence whose only failure is the first attempt's
transient certificate-not-found error, Delete returns an error at once,
although the very retry wrapper Create and Update use would have absorbed
the failure and succeeded on attempt 1. -/
theorem delete_does_not_retry_counterexample :
    resourceAwsLbListenerDelete sampleListenerState deleteTransientEnv =
      (sampleListenerState, some "Error deleting Listener: soon") ∧
    resourceRetry createListenerRetryTimeout
      (fun k => createListenerRetryDecision
        (deleteTransientEnv.deleteListener sampleListenerState.id k)) =
      RetryResult.ok () := by
  exact ⟨rfl, rfl⟩

/-- C3 amended: Create and Update wrap their remote calls in the bounded
5-minute retry on the certificate-not-found transient code — a leading
transient failure is absorbed and the wrapped call still succeeds — while
Delete issues a single `DeleteListener` call with no retry: its result
depends only on the first call outcome, and any failure, the transient
code included, is returned as an error immediately. -/
theorem mutating_lifecycle_retry_amended
    (d : ResourceData) (env env2 : ApiEnv)
    (ce : AwsError) (resp : CreateListenerOutput) (e : AwsError)
    (hce : isAWSErr ce errCodeCertificateNotFoundException "" = true) :
    (env.createListener (buildCreateListenerInput d) 0 = Except.error ce →
      env.createListener (buildCreateListenerInput d) 1 = Except.ok resp →
      resourceRetry createListenerRetryTimeout
        (fun k => createListenerRetryDecision (env.createListener (buildCreateListenerInput d) k)) =
        RetryResult.ok resp) ∧
    (env.modifyListener (buildModifyListenerInput d) 0 = Except.error ce →
      env.modifyListener (buildModifyListenerInput d) 1 = Except.ok () →
      resourceAwsLbListenerUpdate d env = resourceAwsLbListenerRead d env) ∧
    (env.deleteListener d.id 0 = env2.deleteListener d.id 0 →
      resourceAwsLbListenerDelete d env = resourceAwsLbListenerDelete d env2) ∧
    (env.deleteListener d.id 0 = Except.error e →
      resourceAwsLbListenerDelete d env =
        (d, some ("Error deleting Listener: " ++ e.message))) := by
  refine ⟨?_, ?_, ?_, ?_⟩
  · intro h0 h1
    cases hfuel : createListenerRetryTimeout with
    | zero => simp [createListenerRetryTimeout] at hfuel
    | succ m =>
      have hm : 0 < m := by
        simp [createListenerRetryTimeout] at hfuel
        omega
      rw [resourceRetry, resourceRetryAux]
      simp only [h0, createListenerRetryDecision, hce, if_true]
      exact resourceRetryAux_done _ 1 m resp hm (by simp [h1, createListenerRetryDecision])
  · intro h0 h1
    have hretry : resourceRetry modifyListenerRetryTimeout
        (fun k => modifyListenerRetryDecision (env.modifyListener (buildModifyListenerInput d) k)) =
        RetryResult.ok () := by
      cases hfuel : modifyListenerRetryTimeout with
      | zero => simp [modifyListenerRetryTimeout] at hfuel
      | succ m =>
        have hm : 0 < m := by
          simp [modifyListenerRetryTimeout] at hfuel
          omega
        rw [resourceRetry, resourceRetryAux]
        simp only [h0, modifyListenerRetryDecision, hce, if_true]
        exact resourceRetryAux_done _ 1 m () hm (by simp [h1, modifyListenerRetryDecision])
    simp only [resourceAwsLbListenerUpdate, hretry]
  · intro h
    simp only [resourceAwsLbListenerDelete, h]
  · intro h
    simp only [resourceAwsLbListenerDelete, h]

/-- Concrete run of `mutating_lifecycle_retry_amended` on
`deleteTransientEnv`: the delete branch returns the transient error at
once. -/
theorem mutating_lifecycle_retry_amended_witness :
    resourceAwsLbListenerDelete sampleListenerState deleteTransientEnv =
      (sampleListenerState, some "Error deleting Listener: soon") := by
  have h := mutating_lifecycle_retry_amended sampleListenerState
    deleteTransientEnv deleteTransientEnv
    { code := "CertificateNotFound", message := "soon" }
    { listeners := [] }
    { code := "CertificateNotFound", message := "soon" }
    (by decide)
  exact h.2.2.2 rfl

/-- C7 refutation: a Read whose describe call succeeds but returns no
listener does not clear the resource ID and does not return `nil`: the
refresh function turns the empty listener list into a plain
`fmt.Errorf` error ("expected 1, got 0"), which is not recognised as the
listener-not-found AWS error, so Read keeps the state and returns the
wrapped error. -/
theorem read_empty_describe_counterexample :
    resourceAwsLbListenerRead sampleListenerState
      { createListener := fun _ _ => Except.ok { listeners := [] }
        modifyListener := fun _ _ => Except.ok ()
        describeListeners := fun _ _ => Except.ok []
        deleteListener := fun _ _ => Except.ok () } =
      (sampleListenerState,
       some "Error retrieving Listener: Error retrieving Listener arn:l1 (expected 1, got 0)") ∧
    sampleListenerState.id = "arn:l1" := by
  exact ⟨rfl, rfl⟩

/-- C7 amended: when the describe call fails with the listener-not-found
error code, Read clears the resource ID and returns `nil`; when it
succeeds with exactly one listener, Read populates the state from it and
returns `nil`; when it succeeds with a number of listeners different from
one, or fails with any other error, Read keeps the state unchanged and
returns an error. -/
theorem read_clears_state_on_not_found
    (d : ResourceData) (env : ApiEnv) :
    (∀ e, env.describeListeners d.id 0 = Except.error e →
      isAWSErr e errCodeListenerNotFoundException "" = true →
      resourceAwsLbListenerRead d env = ({ d with id := "" }, none)) ∧
    (∀ l, env.describeListeners d.id 0 = Except.ok [l] →
      resourceAwsLbListenerRead d env = (resourceAwsLbListenerReadData d l, none)) ∧
    (∀ ls, env.describeListeners d.id 0 = Except.ok ls → ls.length ≠ 1 →
      resourceAwsLbListenerRead d env =
        (d, some ("Error retrieving Listener: Error retrieving Listener " ++ d.id ++
          " (expected 1, got " ++ toString ls.length ++ ")"))) ∧
    (∀ e, env.describeListeners d.id 0 = Except.error e →
      isAWSErr e errCodeListenerNotFoundException "" = false →
      resourceAwsLbListenerRead d env =
        (d, some ("Error retrieving Listener: Error retrieving Listener: " ++ e.message))) := by
  refine ⟨?_, ?_, ?_, ?_⟩
  · intro e hdesc he
    simp only [resourceAwsLbListenerRead, resourceAwsLbListenerRefreshFunc, hdesc, he, if_true]
  · intro l hdesc
    simp only [resourceAwsLbListenerRead, resourceAwsLbListenerRefreshFunc, hdesc]
  · intro ls hdesc hlen
    cases ls with
    | nil =>
      simp only [resourceAwsLbListenerRead, resourceAwsLbListenerRefreshFunc, hdesc]
      rfl
    | cons x xs =>
      cases xs with
      | nil => simp at hlen
      | cons y ys =>
        simp only [resourceAwsLbListenerRead, resourceAwsLbListenerRefreshFunc, hdesc]
        rfl
  · intro e hdesc he
    simp only [resourceAwsLbListenerRead, resourceAwsLbListenerRefreshFunc, hdesc, he,
      Bool.false_eq_true, if_false, isAWSErrGo]
    rw [← String.append_assoc]
    rfl

/-- Concrete run of `read_clears_state_on_not_found`: a describe failing
with the listener-not-found code clears the ID. -/
theorem read_clears_state_on_not_found_witness :
    resourceAwsLbListenerRead sampleListenerState
      { createListener := fun _ _ => Except.ok { listeners := [] }
        modifyListener := fun _ _ => Except.ok ()
        describeListeners := fun _ _ =>
          Except.error { code := "ListenerNotFound", message := "gone" }
        deleteListener := fun _ _ => Except.ok () } =
      ({ sampleListenerState with id := "" }, none) := by
  have h := read_clears_state_on_not_found sampleListenerState
    { createListener := fun _ _ => Except.ok { listeners := [] }
      modifyListener := fun _ _ => Except.ok ()
      describeListeners := fun _ _ =>
        Except.error { code := "ListenerNotFound", message := "gone" }
      deleteListener := fun _ _ => Except.ok () }
  exact h.1 { code := "ListenerNotFound", message := "gone" } rfl (by decide)

end LbListener

namespace ServiceTags

/-! ## Helper lemmas about the two static lists and the emitted output -/

/-- The slice-shape list repeats no service name. -/
theorem sliceServiceNames_nodup : sliceServiceNames.Nodup := by decide

/-- The map-shape list repeats no service name. -/
theorem mapServiceNames_nodup : mapServiceNames.Nodup := by decide

/-- No service name appears in both static lists. -/
theorem lists_disjoint : ∀ s ∈ sliceServiceNames, s ∉ mapServiceNames := by decide

/-- Every function emitted for a map-shape service carries that service's
name and the map shape. -/
theorem emitMapService_spec (t : String) (f : EmittedFunc) (h : f ∈ emitMapService t) :
    f.service = t ∧ f.shape = TagShape.mapOfString := by
  simp only [emitMapService, List.mem_cons, List.mem_singleton, List.not_mem_nil,
    or_false] at h
  rcases h with rfl | rfl
  · exact ⟨rfl, rfl⟩
  · exact ⟨rfl, rfl⟩

/-- Every function emitted for a slice-shape service carries that
service's name and the slice shape. -/
theorem emitSliceService_spec (t : String) (f : EmittedFunc) (h : f ∈ emitSliceService t) :
    f.service = t ∧ f.shape = TagShape.sliceOfStruct := by
  unfold emitSliceService at h
  rw [List.mem_append] at h
  rcases h with h | h
  · split at h
    · simp only [List.mem_singleton] at h
      subst h
      exact ⟨rfl, rfl⟩
    · simp at h
  · simp only [List.mem_cons, List.mem_singleton, List.not_mem_nil, or_false] at h
    rcases h with rfl | rfl
    · exact ⟨rfl, rfl⟩
    · exact ⟨rfl, rfl⟩

/-- Filtering the emitted functions for a service absent from a name list
yields nothing. -/
theorem filter_flatMap_not_mem (emit : String → List EmittedFunc)
    (hspec : ∀ t f, f ∈ emit t → f.service = t)
    (q : EmittedFunc → Bool) (s : String) :
    ∀ ts : List String, s ∉ ts →
      (ts.flatMap emit).filter (fun f => f.service == s && q f) = [] := by
  intro ts
  induction ts with
  | nil => intro _; rfl
  | cons t rest ih =>
    intro hnot
    rw [List.mem_cons, not_or] at hnot
    obtain ⟨hst, hrest⟩ := hnot
    rw [List.flatMap_cons, List.filter_append, ih hrest, List.append_nil]
    apply List.filter_eq_nil_iff.mpr
    intro f hf
    have hserv := hspec t f hf
    have hfalse : (f.service == s) = false := by
      rw [hserv]
      exact beq_eq_false_iff_ne.mpr (Ne.symm hst)
    simp [hfalse]

/-- Filtering the emitted functions for a service present exactly once in
a name list reduces to filtering that one service's emission. -/
theorem filter_flatMap_of_mem (emit : String → List EmittedFunc)
    (hspec : ∀ t f, f ∈ emit t → f.service = t)
    (q : EmittedFunc → Bool) (s : String) :
    ∀ ts : List String, ts.Nodup → s ∈ ts →
      (ts.flatMap emit).filter (fun f => f.service == s && q f) =
        (emit s).filter (fun f => f.service == s && q f) := by
  intro ts
  induction ts with
  | nil => intro _ h; simp at h
  | cons t rest ih =>
    intro hnd hmem
    rw [List.nodup_cons] at hnd
    obtain ⟨htnot, hndrest⟩ := hnd
    rw [List.flatMap_cons, List.filter_append]
    rcases List.mem_cons.mp hmem with rfl | hmem2
    · rw [filter_flatMap_not_mem emit hspec q s rest htnot, List.append_nil]
    · have hts : t ≠ s := fun h => htnot (h ▸ hmem2)
      have h1 : (emit t).filter (fun f => f.service == s && q f) = [] := by
        apply List.filter_eq_nil_iff.mpr
        intro f hf
        have hserv := hspec t f hf
        have hfalse : (f.service == s) = false := by
          rw [hserv]
          exact beq_eq_false_iff_ne.mpr hts
        simp [hfalse]
      rw [h1, List.nil_append]
      exact ih hndrest hmem2

/-- Every function in the generator's output is either a map-shape
function for a service of the map list, or a slice-shape function for a
service of the slice list. -/
theorem mem_generatorOutput_shape (f : EmittedFunc) (hf : f ∈ generatorOutput) :
    (f.shape = TagShape.mapOfString ∧ f.service ∈ mapServiceNames) ∨
    (f.shape = TagShape.sliceOfStruct ∧ f.service ∈ sliceServiceNames) := by
  unfold generatorOutput at hf
  rw [List.mem_append] at hf
  rcases hf with hf | hf
  · left
    rw [List.mem_flatMap] at hf
    obtain ⟨t, ht, hft⟩ := hf
    obtain ⟨hserv, hshape⟩ := emitMapService_spec t f hft
    refine ⟨hshape, ?_⟩
    rw [hserv]
    exact ((List.perm_insertionSort _ mapServiceNames).mem_iff).mp ht
  · right
    rw [List.mem_flatMap] at hf
    obtain ⟨t, ht, hft⟩ := hf
    obtain ⟨hserv, hshape⟩ := emitSliceService_spec t f hft
    refine ⟨hshape, ?_⟩
    rw [hserv]
    exact ((List.perm_insertionSort _ sliceServiceNames).mem_iff).mp ht

/-- A list all of whose members are one fixed string is sorted. -/
theorem sorted_of_all_eq (t : String) :
    ∀ l : List String, (∀ x ∈ l, x = t) → List.Sorted (· ≤ ·) l := by
  intro l
  induction l with
  | nil => intro _; exact List.sorted_nil
  | cons x xs ih =>
    intro h
    rw [List.sorted_cons]
    refine ⟨?_, ih fun y hy => h y (List.mem_cons_of_mem x hy)⟩
    intro b hb
    rw [h x (List.mem_cons_self x xs), h b (List.mem_cons_of_mem x hb)]

/-- Expanding a sorted name list with a per-service emitter keeps the
emitted functions' service names in sorted order. -/
theorem sorted_flatMap_services (emit : String → List EmittedFunc)
    (hspec : ∀ t f, f ∈ emit t → f.service = t) :
    ∀ ts : List String, List.Sorted (· ≤ ·) ts →
      List.Sorted (· ≤ ·) ((ts.flatMap emit).map EmittedFunc.service) := by
  intro ts
  induction ts with
  | nil => intro _; exact List.sorted_nil
  | cons t rest ih =>
    intro hs
    rw [List.sorted_cons] at hs
    obtain ⟨hle, hrest⟩ := hs
    rw [List.flatMap_cons, List.map_append, List.Sorted, List.pairwise_append]
    refine ⟨?_, ih hrest, ?_⟩
    · apply sorted_of_all_eq t
      intro x hx
      rw [List.mem_map] at hx
      obtain ⟨f, hf, rfl⟩ := hx
      exact hspec t f hf
    · intro a ha b hb
      rw [List.mem_map] at ha hb
      obtain ⟨f, hf, rfl⟩ := ha
      obtain ⟨g, hg, rfl⟩ := hb
      rw [List.mem_flatMap] at hg
      obtain ⟨u, hu, hgu⟩ := hg
      rw [hspec t f hf, hspec u g hgu]
      exact hle u hu

/-! ## Claim theorems about the tag-helper generator -/

/-- C6: a service of the slice-shape list never appears in the map-shape
list, and consequently all functions the generator emits for such a
service have the slice shape — for no service are both shapes emitted. -/
theorem service_lists_disjoint (s : String) (h : s ∈ sliceServiceNames) :
    s ∉ mapServiceNames ∧
    ∀ f g, f ∈ generatorOutput → g ∈ generatorOutput →
      f.service = s → g.service = s →
      f.shape = TagShape.sliceOfStruct ∧ g.shape = f.shape := by
  refine ⟨lists_disjoint s h, ?_⟩
  intro f g hf hg hfs hgs
  have hfshape : f.shape = TagShape.sliceOfStruct := by
    rcases mem_generatorOutput_shape f hf with ⟨_, hmem⟩ | ⟨hsh, _⟩
    · rw [hfs] at hmem
      exact absurd hmem (lists_disjoint s h)
    · exact hsh
  have hgshape : g.shape = TagShape.sliceOfStruct := by
    rcases mem_generatorOutput_shape g hg with ⟨_, hmem⟩ | ⟨hsh, _⟩
    · rw [hgs] at hmem
      exact absurd hmem (lists_disjoint s h)
    · exact hsh
  rw [hfshape, hgshape]
  exact ⟨rfl, rfl⟩

/-- Concrete run of `service_lists_disjoint` at the slice service
`"acm"`. -/
theorem service_lists_disjoint_witness : "acm" ∉ mapServiceNames :=
  (service_lists_disjoint "acm" (by decide)).1

/-- C9: `main` sorts both static lists ascending before template
execution (the sorted lists are sorted permutations of the static ones),
so the per-service functions are emitted in alphabetical order of service
name within each template section; the embedded generator is a pure
function of the static lists, so its output is the same on every run. -/
theorem generator_sorted_deterministic :
    List.Sorted (· ≤ ·) sortedMapServiceNames ∧
    List.Sorted (· ≤ ·) sortedSliceServiceNames ∧
    sortedMapServiceNames.Perm mapServiceNames ∧
    sortedSliceServiceNames.Perm sliceServiceNames ∧
    List.Sorted (· ≤ ·) ((sortedMapServiceNames.flatMap emitMapService).map EmittedFunc.service) ∧
    List.Sorted (· ≤ ·)
      ((sortedSliceServiceNames.flatMap emitSliceService).map EmittedFunc.service) := by
  have hmsort : List.Sorted (· ≤ ·) sortedMapServiceNames :=
    List.sorted_insertionSort (· ≤ ·) mapServiceNames
  have hssort : List.Sorted (· ≤ ·) sortedSliceServiceNames :=
    List.sorted_insertionSort (· ≤ ·) sliceServiceNames
  refine ⟨hmsort, hssort, List.perm_insertionSort _ _, List.perm_insertionSort _ _, ?_, ?_⟩
  · exact sorted_flatMap_services emitMapService
      (fun t f hf => (emitMapService_spec t f hf).1) sortedMapServiceNames hmsort
  · exact sorted_flatMap_services emitSliceService
      (fun t f hf => (emitSliceService_spec t f hf).1) sortedSliceServiceNames hssort

/-- C4: for every service of the map-shape list the generator emits
exactly one container-to-map function and exactly one map-to-container
function, and for every service of the slice-shape list exactly one
container-to-slice function and one slice-to-container function carrying
that service's tag type and key/value field names. -/
theorem generator_one_pair_per_service (s : String) :
    (s ∈ mapServiceNames →
      generatorOutput.filter (fun f => f.service == s && f.role == FuncRole.toTags) =
        [{ service := s, name := s.capitalize ++ "Tags", role := FuncRole.toTags,
           shape := TagShape.mapOfString, tagType := "", keyField := "", valueField := "" }] ∧
      generatorOutput.filter (fun f => f.service == s && f.role == FuncRole.fromTags) =
        [{ service := s, name := s.capitalize ++ "KeyValueTags", role := FuncRole.fromTags,
           shape := TagShape.mapOfString, tagType := "", keyField := "", valueField := "" }]) ∧
    (s ∈ sliceServiceNames →
      generatorOutput.filter (fun f => f.service == s && f.role == FuncRole.toTags) =
        [{ service := s, name := s.capitalize ++ "Tags", role := FuncRole.toTags,
           shape := TagShape.sliceOfStruct, tagType := ServiceTagType s,
           keyField := ServiceTagTypeKeyField s, valueField := ServiceTagTypeValueField s }] ∧
      generatorOutput.filter (fun f => f.service == s && f.role == FuncRole.fromTags) =
        [{ service := s, name := s.capitalize ++ "KeyValueTags", role := FuncRole.fromTags,
           shape := TagShape.sliceOfStruct, tagType := ServiceTagType s,
           keyField := ServiceTagTypeKeyField s, valueField := ServiceTagTypeValueField s }]) := by
  have hmnodup : sortedMapServiceNames.Nodup :=
    ((List.perm_insertionSort _ mapServiceNames).nodup_iff).mpr mapServiceNames_nodup
  have hsnodup : sortedSliceServiceNames.Nodup :=
    ((List.perm_insertionSort _ sliceServiceNames).nodup_iff).mpr sliceServiceNames_nodup
  constructor
  · intro hmem
    have hmem2 : s ∈ sortedMapServiceNames :=
      ((List.perm_insertionSort _ mapServiceNames).mem_iff).mpr hmem
    have hnots : s ∉ sortedSliceServiceNames := fun hc =>
      lists_disjoint s (((List.perm_insertionSort _ sliceServiceNames).mem_iff).mp hc) hmem
    constructor
    · rw [generatorOutput, List.filter_append,
        filter_flatMap_of_mem emitMapService (fun t f hf => (emitMapService_spec t f hf).1)
          _ s sortedMapServiceNames hmnodup hmem2,
        filter_flatMap_not_mem emitSliceService (fun t f hf => (emitSliceService_spec t f hf).1)
          _ s sortedSliceServiceNames hnots,
        List.append_nil]
      simp [emitMapService, List.filter]
      rfl
    · rw [generatorOutput, List.filter_append,
        filter_flatMap_of_mem emitMapService (fun t f hf => (emitMapService_spec t f hf).1)
          _ s sortedMapServiceNames hmnodup hmem2,
        filter_flatMap_not_mem emitSliceService (fun t f hf => (emitSliceService_spec t f hf).1)
          _ s sortedSliceServiceNames hnots,
        List.append_nil]
      simp [emitMapService, List.filter]
      rfl
  · intro hmem
    have hmem2 : s ∈ sortedSliceServiceNames :=
      ((List.perm_insertionSort _ sliceServiceNames).mem_iff).mpr hmem
    have hnots : s ∉ sortedMapServiceNames := fun hc =>
      lists_disjoint s hmem (((List.perm_insertionSort _ mapServiceNames).mem_iff).mp hc)
    constructor
    · rw [generatorOutput, List.filter_append,
        filter_flatMap_not_mem emitMapService (fun t f hf => (emitMapService_spec t f hf).1)
          _ s sortedMapServiceNames hnots,
        filter_flatMap_of_mem emitSliceService (fun t f hf => (emitSliceService_spec t f hf).1)
          _ s sortedSliceServiceNames hsnodup hmem2,
        List.nil_append]
      unfold emitSliceService
      rw [List.filter_append]
      split
      · simp [List.filter]
        rfl
      · simp [List.filter]
        rfl
    · rw [generatorOutput, List.filter_append,
        filter_flatMap_not_mem emitMapService (fun t f hf => (emitMapService_spec t f hf).1)
          _ s sortedMapServiceNames hnots,
        filter_flatMap_of_mem emitSliceService (fun t f hf => (emitSliceService_spec t f hf).1)
          _ s sortedSliceServiceNames hsnodup hmem2,
        List.nil_append]
      unfold emitSliceService
      rw [List.filter_append]
      split
      · simp [List.filter]
        rfl
      · simp [List.filter]
        rfl

/-- Concrete run of `generator_one_pair_per_service` at the map service
`"sqs"` and the slice service `"kms"` (whose tag type uses the
service-specific `TagKey`/`TagValue` field names). -/
theorem generator_one_pair_per_service_witness :
    generatorOutput.filter (fun f => f.service == "sqs" && f.role == FuncRole.toTags) =
      [{ service := "sqs", name := "sqs".capitalize ++ "Tags", role := FuncRole.toTags,
         shape := TagShape.mapOfString, tagType := "", keyField := "", valueField := "" }] ∧
    generatorOutput.filter (fun f => f.service == "kms" && f.role == FuncRole.fromTags) =
      [{ service := "kms", name := "kms".capitalize ++ "KeyValueTags", role := FuncRole.fromTags,
         shape := TagShape.sliceOfStruct, tagType := ServiceTagType "kms",
         keyField := ServiceTagTypeKeyField "kms",
         valueField := ServiceTagTypeValueField "kms" }] :=
  ⟨((generator_one_pair_per_service "sqs").1 (by decide)).1,
   ((generator_one_pair_per_service "kms").2 (by decide)).2⟩

/-- Inserting an absent key into a Go map appends the binding. -/
theorem mapInsert_of_not_mem (m : GoMap) (k v : String)
    (h : k ∉ m.map Prod.fst) :
    mapInsert m k v = m ++ [(k, v)] := by
  unfold mapInsert
  rw [if_neg]
  intro hc
  rw [List.any_eq_true] at hc
  obtain ⟨p, hp, hpk⟩ := hc
  rw [beq_iff_eq] at hpk
  exact h (hpk ▸ List.mem_map_of_mem Prod.fst hp)

/-- Folding tag structs whose keys are all distinct into an accumulator
map with distinct, disjoint keys appends the bindings in order. -/
theorem foldl_mapInsert_append :
    ∀ (l : List ServiceTag) (acc : GoMap),
      ((acc ++ l.map fun t => (t.key, t.value)).map Prod.fst).Nodup →
      l.foldl (fun m t => mapInsert m t.key t.value) acc =
        acc ++ l.map fun t => (t.key, t.value) := by
  intro l
  induction l with
  | nil => intro acc _; simp
  | cons t ts ih =>
    intro acc hnd
    have hnd2 := hnd
    rw [List.map_cons, List.map_append, List.map_cons, List.nodup_append] at hnd2
    obtain ⟨_, _, hdisj⟩ := hnd2
    have hnot : t.key ∉ acc.map Prod.fst := fun hmem =>
      (hdisj hmem) (List.mem_cons_self _ _)
    rw [List.map_cons, List.append_cons] at hnd
    rw [List.foldl_cons, mapInsert_of_not_mem acc t.key t.value hnot, ih _ hnd]
    simp

/-- C8: for every slice-shape service, converting a generic key/value
container with distinct keys to the service's slice-of-struct tags with
the generated `{Title}Tags` body and back with the generated
`{Title}KeyValueTags` body returns the original container. -/
theorem generated_slice_roundtrip (s : String) (_hs : s ∈ sliceServiceNames)
    (tags : GoMap) (hnd : (tags.map Prod.fst).Nodup) :
    serviceKeyValueTags (serviceTags tags) = tags := by
  unfold serviceKeyValueTags serviceTags
  have hmm : ((tags.map fun p => ({ key := p.1, value := p.2 } : ServiceTag)).map
      fun t => (t.key, t.value)) = tags := by
    rw [List.map_map]
    have hcomp : ((fun t : ServiceTag => (t.key, t.value)) ∘
        fun p : String × String => ({ key := p.1, value := p.2 } : ServiceTag)) = id := by
      funext p
      rfl
    rw [hcomp, List.map_id]
  have h := foldl_mapInsert_append (tags.map fun p => { key := p.1, value := p.2 }) []
    (by rw [List.nil_append, hmm]; exact hnd)
  rw [h, List.nil_append, hmm]

/-- Concrete run of `generated_slice_roundtrip` at the slice service
`"acm"` on a two-entry container. -/
theorem generated_slice_roundtrip_witness :
    serviceKeyValueTags (serviceTags [("Name", "alpha"), ("Env", "prod")]) =
      [("Name", "alpha"), ("Env", "prod")] :=
  generated_slice_roundtrip "acm" (by decide) [("Name", "alpha"), ("Env", "prod")] (by decide)

end ServiceTags
